import Mathlib

/-!
Verification of the merge recovery core
(src/recovery/elliptics_recovery/types/merge.py).

The per-key `Recovery` state machine (lookup on the owner, chunked read
from the holder, write to the owner, remove from the holder, with retry
and timeout doubling) is embedded as a fuel-indexed interpreter over an
explicit task state.  The asynchronous callback chain of the source
(`run -> onlookup -> read -> onread -> write -> onwrite -> remove ->
onremove`) is sequentialised: each storage response is drawn from an
environment `Env` describing what the external storage returns.  The
`DumpRecover.check` winner selection and the `get_ranges` foreign-range
builder are embedded as plain functions.
-/

set_option maxHeartbeats 1000000
set_option exponentiation.threshold 1024
set_option maxRecDepth 4096

namespace MergeRec

/-- Counter record accumulated by a task.  Modelled from the spec:
`RecoverStat` lives in `elliptics_recovery.utils.misc` which is not under
src/; the spec lists the numeric counters `{skipped, read, read_bytes,
read_retries, read_failed, write, written_bytes, write_retries,
write_failed, removed, remove_failed, remove_retries, ...}`, a monoid
under componentwise addition with identity zero. -/
structure RecoverStat where
  skipped : Nat
  read : Nat
  read_bytes : Nat
  read_retries : Nat
  read_failed : Nat
  write : Nat
  written_bytes : Nat
  write_retries : Nat
  write_failed : Nat
  removed : Nat
  remove_retries : Nat
  remove_failed : Nat
deriving DecidableEq

/-- The all-zero counter record (`RecoverStat()` identity). -/
def zeroStat : RecoverStat := ⟨0, 0, 0, 0, 0, 0, 0, 0, 0, 0, 0, 0⟩

/-- Componentwise addition of counters (the source's `stats += stats`). -/
def addStat (a b : RecoverStat) : RecoverStat :=
  ⟨a.skipped + b.skipped, a.read + b.read, a.read_bytes + b.read_bytes,
   a.read_retries + b.read_retries, a.read_failed + b.read_failed,
   a.write + b.write, a.written_bytes + b.written_bytes,
   a.write_retries + b.write_retries, a.write_failed + b.write_failed,
   a.removed + b.removed, a.remove_retries + b.remove_retries,
   a.remove_failed + b.remove_failed⟩

/-- The configuration fields of `ctx` that the `Recovery` state machine
reads (merge.py uses `ctx.chunk_size`, `ctx.attempts`, `ctx.wait_timeout`,
`ctx.safe`, `ctx.dry_run`). -/
structure Ctx where
  chunk_size : Nat
  attempts : Nat
  wait_timeout : Nat
  safe : Bool
  dry_run : Bool
deriving DecidableEq

/-- A storage operation issued by a `Recovery` task, in issue order:
`lookupE` is the `LookupDirect` on the owner, `readE offset size` the
direct `read_data`, the four write constructors mirror `write_prepare`
(`remote_offset`, `psize`), `write_plain` (`remote_offset`),
`write_commit` (`remote_offset`, `csize`) and `write_data` (`offset`),
and `removeE` the `RemoveDirect` on the holder. -/
inductive Event where
  | lookupE : Event
  | readE : Nat → Nat → Event
  | writePrepareE : Nat → Nat → Event
  | writePlainE : Nat → Event
  | writeCommitE : Nat → Nat → Event
  | writeDataE : Nat → Event
  | removeE : Event
deriving DecidableEq

/-- One successful `read_data` response: `results[0].size`,
`results[0].io_attribute.total_size`, `results[0].user_flags`,
`results[0].timestamp`. -/
structure ReadResp where
  size : Nat
  io_total_size : Nat
  user_flags : Nat
  timestamp : Nat
deriving DecidableEq

/-- The external world a single `Recovery` task talks to.  `owner` is
what `session.lookup_address(key, group)` returns.  `lookup_found` /
`lookup_timestamp` / `lookup_stats` describe the `LookupDirect` callback
arguments (modelled from the spec: `LookupDirect` is in
`elliptics_recovery.utils.misc`, not under src/; it invokes the callback
with the lookup result, or a falsy value on a miss, plus its own stats).
`read_resp i` is the outcome of the `i`-th issued `read_data` (`none`
means `error.code != 0 or len(results) < 1`), `write_ok i` the outcome of
the `i`-th issued write, and `remove_ok` / `remove_stats` the
`RemoveDirect` callback arguments (also modelled from the spec). -/
structure Env where
  owner : Nat
  lookup_found : Bool
  lookup_timestamp : Nat
  lookup_stats : RecoverStat
  read_resp : Nat → Option ReadResp
  write_ok : Nat → Bool
  remove_ok : Bool
  remove_stats : RecoverStat

/-- The mutable state of one `Recovery` task: the attributes assigned in
`Recovery.__init__` and mutated by the callbacks, plus the per-session
timeout of the routed session (`self.session`) and of the direct session
(`self.direct_session`), and the trace `events` of storage operations
issued so far.  `callback_fired` records whether `self.callback` has been
invoked. -/
structure RState where
  result : Bool
  attempt : Nat
  total_size : Nat
  recovered_size : Nat
  just_remove : Bool
  chunked : Bool
  session_timeout : Nat
  direct_timeout : Nat
  direct_nocsum : Bool
  session_user_flags : Option Nat
  cap_timestamp : Option Nat
  stats : RecoverStat
  callback_fired : Bool
  reads_issued : Nat
  writes_issued : Nat
  events : List Event
deriving DecidableEq

/-- The state right after `Recovery.__init__`: in particular
`chunked = total_size > ctx.chunk_size`, computed once from the
iterator-reported `size`, and both sessions start at the node's
`wait_timeout`. -/
def initState (ctx : Ctx) (size : Nat) : RState :=
  { result := true, attempt := 0, total_size := size, recovered_size := 0,
    just_remove := false, chunked := decide (ctx.chunk_size < size),
    session_timeout := ctx.wait_timeout, direct_timeout := ctx.wait_timeout,
    direct_nocsum := false, session_user_flags := none, cap_timestamp := none,
    stats := zeroStat, callback_fired := false, reads_issued := 0,
    writes_issued := 0, events := [] }

/-- The size argument of the next `read_data`, as computed in
`Recovery.read`: `min(total_size - recovered_size, ctx.chunk_size)` when
chunked, else `0` (whole object). -/
def readSz (ctx : Ctx) (st : RState) : Nat :=
  if st.chunked then min (st.total_size - st.recovered_size) ctx.chunk_size else 0

/-- The write operation chosen in `Recovery.write` for a buffer of
`w = len(write_data)` bytes: `write_prepare` on the first chunk,
`write_plain` on middle chunks, `write_commit` on the last chunk when
chunked, `write_data` otherwise. -/
def writeEv (st : RState) (w : Nat) : Event :=
  if st.chunked then
    if st.recovered_size = 0 then Event.writePrepareE st.recovered_size st.total_size
    else if st.recovered_size + w < st.total_size then Event.writePlainE st.recovered_size
    else Event.writeCommitE st.recovered_size st.total_size
  else Event.writeDataE st.recovered_size

/-- Model of `Recovery.remove` followed by `Recovery.onremove`: skip the remove
entirely when `ctx.safe` (firing the callback if any); otherwise issue
the `RemoveDirect`, fold `removed` into `result`, add the remove stats,
and fire the callback if any. -/
def goRemove (ctx : Ctx) (env : Env) (cb : Bool) (st : RState) : RState :=
  if ctx.safe then
    { st with callback_fired := if cb then true else st.callback_fired }
  else
    { st with events := st.events ++ [Event.removeE],
              result := st.result && env.remove_ok,
              stats := addStat st.stats env.remove_stats,
              callback_fired := if cb then true else st.callback_fired }

/-- Which stage of the read/write chunk loop runs next: `readP` is
`Recovery.read`, `writeP w` is `Recovery.write` with a `write_size` of
`w` bytes just read. -/
inductive Phase where
  | readP : Phase
  | writeP : Nat → Phase
deriving DecidableEq

/-- The `read -> onread -> write -> onwrite` callback loop of the source,
driven by fuel (each issued read or write consumes one unit; `none` means
the fuel ran out before the task terminated).  Mirrors `Recovery.read`,
`Recovery.onread`, `Recovery.write` and `Recovery.onwrite` line by line:
on an I/O failure with `attempt < ctx.attempts` the routed session's
timeout is doubled (`self.session.timeout *= 2` in both `onread` and
`onwrite`), the attempt counter and the retry counter are bumped and the
same operation is reissued; on exhausted attempts `result` becomes false,
the `*_failed` counter is bumped and the task stops; on a successful read
the first response captures `user_flags` and `timestamp`, `total_size` is
overwritten from `io_attribute.total_size`, and the write stage runs; on
a successful write `recovered_size` advances and either the next chunk is
read or the remove stage runs. -/
def loop (ctx : Ctx) (env : Env) (cb : Bool) : Nat → Phase → RState → Option RState
  | 0, _, _ => none
  | Nat.succ fuel, Phase.readP, st =>
    let sz := readSz ctx st
    let st1 := { st with
      direct_nocsum := if st.recovered_size ≠ 0 then true else st.direct_nocsum,
      events := st.events ++ [Event.readE st.recovered_size sz],
      reads_issued := st.reads_issued + 1 }
    match env.read_resp st.reads_issued with
    | none =>
      if st1.attempt < ctx.attempts then
        loop ctx env cb fuel Phase.readP
          { st1 with session_timeout := st1.session_timeout * 2,
                     attempt := st1.attempt + 1,
                     stats := { st1.stats with read_retries := st1.stats.read_retries + 1 } }
      else
        some { st1 with result := false,
                        stats := { st1.stats with read_failed := st1.stats.read_failed + 1 } }
    | some r =>
      let st3 := { st1 with
        session_user_flags := if st1.recovered_size = 0 then some r.user_flags
                              else st1.session_user_flags,
        cap_timestamp := if st1.recovered_size = 0 then some r.timestamp
                         else st1.cap_timestamp,
        stats := { st1.stats with read := st1.stats.read + 1,
                                  read_bytes := st1.stats.read_bytes + r.size },
        total_size := r.io_total_size,
        attempt := 0 }
      loop ctx env cb fuel (Phase.writeP r.size) st3
  | Nat.succ fuel, Phase.writeP w, st =>
    let st1 := { st with events := st.events ++ [writeEv st w],
                         writes_issued := st.writes_issued + 1 }
    if env.write_ok st.writes_issued then
      let st2 := { st1 with
        stats := { st1.stats with write := st1.stats.write + 1,
                                  written_bytes := st1.stats.written_bytes + w },
        recovered_size := st1.recovered_size + w,
        attempt := 0 }
      if st2.recovered_size < st2.total_size then
        loop ctx env cb fuel Phase.readP st2
      else
        some (goRemove ctx env cb st2)
    else
      if st1.attempt < ctx.attempts then
        loop ctx env cb fuel (Phase.writeP w)
          { st1 with session_timeout := st1.session_timeout * 2,
                     attempt := st1.attempt + 1,
                     stats := { st1.stats with write_retries := st1.stats.write_retries + 1 } }
      else
        some { st1 with result := false,
                        stats := { st1.stats with write_failed := st1.stats.write_failed + 1 } }

/-- A full `Recovery` task run (`Recovery.run` and the whole callback
chain): resolve the owner; if it equals the holder `address`, bump
`stats.skipped` and stop.  Otherwise, when `check` holds issue the
direct lookup on the owner and branch as `Recovery.onlookup` does: a
found copy strictly newer than `key_timestamp` sets `just_remove` and
goes straight to the remove stage (unless `dry_run`); otherwise the
read/write loop runs (unless `dry_run`).  When `check` is false the
read/write loop runs directly (unless `dry_run`). -/
def runRecovery (ctx : Ctx) (env : Env) (key_timestamp size address : Nat)
    (check cb : Bool) (fuel : Nat) : Option RState :=
  let st0 := initState ctx size
  if env.owner = address then
    some { st0 with stats := { st0.stats with skipped := st0.stats.skipped + 1 } }
  else if check then
    let st1 := { st0 with events := st0.events ++ [Event.lookupE],
                          stats := addStat st0.stats env.lookup_stats }
    if env.lookup_found && decide (key_timestamp < env.lookup_timestamp) then
      let st2 := { st1 with just_remove := true }
      if ctx.dry_run then some st2
      else some (goRemove ctx env cb { st2 with attempt := 0 })
    else
      if ctx.dry_run then some st1
      else loop ctx env cb fuel Phase.readP { st1 with attempt := 0 }
  else if ctx.dry_run then
    some st0
  else
    loop ctx env cb fuel Phase.readP { st0 with attempt := 0 }

/-- Events a non-chunked task can issue after construction: whole-object
reads, plain `write_data` writes, the initial lookup and the final
remove — never a `write_prepare`, `write_plain`, `write_commit` or a
partial read.  `chunkStyle e = true` marks the chunk-only shapes. -/
def chunkStyle : Event → Bool
  | Event.writePrepareE _ _ => true
  | Event.writePlainE _ => true
  | Event.writeCommitE _ _ => true
  | Event.readE _ s => decide (s ≠ 0)
  | _ => false

/-- One successful direct lookup response collected by `DumpRecover`:
`{address, timestamp, size}`. -/
structure LookupResp where
  address : Nat
  timestamp : Nat
  size : Nat
deriving DecidableEq

/-- What `DumpRecover.check` decides for a key: the rightful owner
already holds a winning replica (go to cleanup), or recover from the
first winner with the given timestamp and size. -/
inductive DumpDecision where
  | cleanup : DumpDecision
  | recoverFrom : Nat → Nat → Nat → DumpDecision
deriving DecidableEq

/-- The truthy entries of `self.lookup_results` (the source filters with
`if r`; a miss is falsy). -/
def presentOf (lrs : List (Option LookupResp)) : List LookupResp := lrs.filterMap id

/-- The replica responses `DumpRecover.check` keeps: those with the
maximum timestamp and, among those, the maximum size (the two list
comprehensions of lines 520-525). -/
def dumpWinners (present : List LookupResp) : List LookupResp :=
  match (present.map (fun r => r.timestamp)).max? with
  | none => []
  | some max_ts =>
    let results := present.filter (fun r => r.timestamp == max_ts)
    match (results.map (fun r => r.size)).max? with
    | none => []
    | some max_size => results.filter (fun r => r.size == max_size)

/-- Model of `DumpRecover.check`: compute the maximum timestamp over the truthy
lookup results (Python's `max` raises on an empty sequence, modelled as
`Except.error`), keep the responses attaining it, compute the maximum
size among those, keep the winners' addresses; if the rightful owner's
address `sa` is among them go to cleanup, else recover from the first
winner with the maxima. -/
def dumpCheck (sa : Nat) (lrs : List (Option LookupResp)) : Except Unit DumpDecision :=
  match (presentOf lrs |>.map (fun r => r.timestamp)).max? with
  | none => Except.error ()
  | some max_ts =>
    let results := (presentOf lrs).filter (fun r => r.timestamp == max_ts)
    match (results.map (fun r => r.size)).max? with
    | none => Except.error ()
    | some max_size =>
      let winners := (results.filter (fun r => r.size == max_size)).map (fun r => r.address)
      if sa ∈ winners then Except.ok DumpDecision.cleanup
      else
        match winners with
        | [] => Except.error ()
        | w :: _ => Except.ok (DumpDecision.recoverFrom w max_ts max_size)

/-- Model of `DumpRecover.remove` (lines 555-561): the addresses a cleanup remove
is issued to — every truthy responder other than the rightful owner
`sa` and the recovery source `ra` — unless that list is empty or
`ctx.safe` is set, in which case nothing is removed. -/
def dumpRemoveTargets (safe : Bool) (sa : Nat) (ra : Option Nat)
    (lrs : List (Option LookupResp)) : List Nat :=
  let addresses := (lrs.filterMap id).filterMap
    (fun r => if r.address = sa ∨ some r.address = ra then none else some r.address)
  if addresses ≠ [] ∧ safe = false then addresses else []

/-- A response is a winner when it is present, no response has a newer
timestamp, and no response with the same timestamp is larger.  This is
the specification-side reading of lines 520-525, proved equivalent to
the computed `dumpWinners` list. -/
def isWinner (present : List LookupResp) (r : LookupResp) : Prop :=
  r ∈ present ∧ (∀ q ∈ present, q.timestamp ≤ r.timestamp) ∧
    (∀ q ∈ present, q.timestamp = r.timestamp → q.size ≤ r.size)

/-- The constructor arguments `DumpRecover.recover` passes to
`Recovery`: the winning timestamp and size, the first winner as source
address, `check=False`, and `callback=self.onrecover`. -/
structure RecoveryArgs where
  key_timestamp : Nat
  size : Nat
  address : Nat
  check : Bool
  has_callback : Bool
deriving DecidableEq

/-- Arguments of `Recovery(key, timestamp=ts, size=sz, address=addr, ..., check=False,
callback=self.onrecover)` as built in `DumpRecover.recover`. -/
def dumpRecoverArgs (ts sz addr : Nat) : RecoveryArgs :=
  { key_timestamp := ts, size := sz, address := addr, check := false, has_callback := true }

/-- Model of `elliptics.Id([0] * 64, group)`: keys are 64-byte identifiers,
modelled as natural numbers below `2 ^ 512`. -/
def ID_MIN : Nat := 0

/-- Model of `elliptics.Id([255] * 64, group)`. -/
def ID_MAX : Nat := 2 ^ 512 - 1

/-- The gap ranges appended by the loop
`for i in xrange(1, len(addr_ranges)): append((addr_ranges[i-1][1],
addr_ranges[i][0]))`. -/
def gapsOf : List (Nat × Nat) → List (Nat × Nat)
  | [] => []
  | _ :: [] => []
  | p :: q :: rest => (p.2, q.1) :: gapsOf (q :: rest)

/-- The body of the `get_ranges` per-address loop for a nonempty owned
range list: a leading `(ID_MIN, first.lo)` if the first owned range does
not start at `ID_MIN`, the gaps between consecutive owned ranges, and a
trailing `(last.hi, ID_MAX)` if the last owned range does not end at
`ID_MAX`. -/
def foreignOf : List (Nat × Nat) → List (Nat × Nat)
  | [] => []
  | p :: rest =>
    (if p.1 ≠ ID_MIN then [(ID_MIN, p.1)] else [])
      ++ gapsOf (p :: rest)
      ++ (if (rest.getLastD p).2 ≠ ID_MAX then [((rest.getLastD p).2, ID_MAX)] else [])

/-- Model of `get_ranges(ctx, group)` (lines 398-428): in one-node mode return
`None` when `ctx.address` is not among the group's addresses, else
restrict to it; for each address with a nonempty owned range list store
its foreign ranges (addresses whose owned range list is empty are
skipped by the `continue`).  The result dictionary is modelled as an
association list in iteration order. -/
def get_ranges (one_node : Bool) (ctx_address : Nat) (addresses : List Nat)
    (get_address_ranges : Nat → List (Nat × Nat)) :
    Option (List (Nat × List (Nat × Nat))) :=
  let addrs? := if one_node then
      (if ctx_address ∈ addresses then some [ctx_address] else none)
    else some addresses
  match addrs? with
  | none => none
  | some addrs => some (addrs.filterMap (fun addr =>
      match get_address_ranges addr with
      | [] => none
      | ar => some (addr, foreignOf ar)))

/-- A configuration used by the concrete witness runs: chunk size 100,
two attempts, wait timeout 10, safe and dry-run off. -/
def wCtx : Ctx := ⟨100, 2, 10, false, false⟩

/-- Same as `wCtx` with safe mode on. -/
def wCtxSafe : Ctx := ⟨100, 2, 10, true, false⟩

/-- A configuration with a single attempt, for the terminal-failure
counterexample. -/
def wCtxOneAttempt : Ctx := ⟨100, 1, 10, false, false⟩

/-- An environment where every storage operation succeeds: the owner is
node 1, the owner's lookup finds a copy with timestamp 5, reads return a
3-byte whole object, writes and the remove succeed. -/
def wEnvOk : Env :=
  ⟨1, true, 5, zeroStat, fun _ => some ⟨3, 3, 7, 9⟩, fun _ => true, true, zeroStat⟩

/-- An environment where every read fails (times out). -/
def wEnvReadFail : Env :=
  ⟨1, false, 0, zeroStat, fun _ => none, fun _ => true, true, zeroStat⟩

/-- An environment where the first read fails and later reads return a
4-byte whole object, exhibiting one read retry. -/
def wEnvRetry : Env :=
  ⟨1, false, 0, zeroStat, fun i => if i = 0 then none else some ⟨4, 4, 0, 0⟩,
   fun _ => true, true, zeroStat⟩

/-- The terminal state of the C1 witness run. -/
def c1St : RState := (runRecovery wCtx wEnvOk 0 5 0 false true 10).getD (initState wCtx 5)

/-- The terminal state of the C8 witness run. -/
def c8St : RState := (runRecovery wCtx wEnvOk 0 5 0 true true 10).getD (initState wCtx 5)

/-- The terminal state of the C10 witness run. -/
def c10St : RState := (runRecovery wCtx wEnvOk 0 5 0 false false 10).getD (initState wCtx 5)

/-- The terminal state of the C4 witness run (safe mode). -/
def c4St : RState := (runRecovery wCtxSafe wEnvOk 0 5 0 false true 10).getD (initState wCtxSafe 5)

/-- Lookup results for the C7 witness: replicas `(ts, size)` =
`(100, 10)`, `(200, 10)`, `(200, 20)`, `(200, 20)` on addresses
2, 3, 4, 5, with one miss. -/
def c7Lrs : List (Option LookupResp) :=
  [some ⟨2, 100, 10⟩, some ⟨3, 200, 10⟩, none, some ⟨4, 200, 20⟩, some ⟨5, 200, 20⟩]

theorem goRemove_chunked (ctx : Ctx) (env : Env) (cb : Bool) (st : RState) :
    (goRemove ctx env cb st).chunked = st.chunked := by
  unfold goRemove
  split <;> split <;> rfl

theorem goRemove_total (ctx : Ctx) (env : Env) (cb : Bool) (st : RState) :
    (goRemove ctx env cb st).total_size = st.total_size := by
  unfold goRemove
  split <;> split <;> rfl

theorem goRemove_recovered (ctx : Ctx) (env : Env) (cb : Bool) (st : RState) :
    (goRemove ctx env cb st).recovered_size = st.recovered_size := by
  unfold goRemove
  split <;> split <;> rfl

theorem goRemove_just_remove (ctx : Ctx) (env : Env) (cb : Bool) (st : RState) :
    (goRemove ctx env cb st).just_remove = st.just_remove := by
  unfold goRemove
  split <;> split <;> rfl

theorem goRemove_write_le (ctx : Ctx) (env : Env) (cb : Bool) (st : RState) :
    st.stats.write ≤ (goRemove ctx env cb st).stats.write := by
  unfold goRemove
  split <;> split <;> simp [addStat]

theorem goRemove_events (ctx : Ctx) (env : Env) (cb : Bool) (st : RState) :
    (goRemove ctx env cb st).events =
      if ctx.safe then st.events else st.events ++ [Event.removeE] := by
  unfold goRemove
  split <;> split <;> simp_all

theorem goRemove_callback (ctx : Ctx) (env : Env) (st : RState) :
    (goRemove ctx env true st).callback_fired = true := by
  unfold goRemove
  split <;> rfl

theorem goRemove_callback_false (ctx : Ctx) (env : Env) (st : RState) :
    (goRemove ctx env false st).callback_fired = st.callback_fired := by
  unfold goRemove
  split <;> rfl

theorem goRemove_read_failed (ctx : Ctx) (env : Env) (cb : Bool) (st : RState) :
    (goRemove ctx env cb st).stats.read_failed =
      st.stats.read_failed + (if ctx.safe then 0 else env.remove_stats.read_failed) := by
  unfold goRemove
  split <;> split <;> simp [addStat]

theorem goRemove_write_failed (ctx : Ctx) (env : Env) (cb : Bool) (st : RState) :
    (goRemove ctx env cb st).stats.write_failed =
      st.stats.write_failed + (if ctx.safe then 0 else env.remove_stats.write_failed) := by
  unfold goRemove
  split <;> split <;> simp [addStat]

theorem loop_chunked_inv (ctx : Ctx) (env : Env) (cb : Bool) :
    ∀ fuel ph st st', loop ctx env cb fuel ph st = some st' → st'.chunked = st.chunked := by
  intro fuel
  induction fuel with
  | zero => intro ph st st' h; simp [loop] at h
  | succ n ih =>
    intro ph st st' h
    cases ph with
    | readP =>
      simp only [loop] at h
      split at h
      · split at h
        · exact (ih _ _ _ h).trans rfl
        · cases h; rfl
      · exact (ih _ _ _ h).trans rfl
    | writeP w =>
      simp only [loop] at h
      split at h
      · split at h
        · exact (ih _ _ _ h).trans rfl
        · cases h; rw [goRemove_chunked]
      · split at h
        · exact (ih _ _ _ h).trans rfl
        · cases h; rfl

theorem writeEv_ne_remove (st : RState) (w : Nat) : Event.removeE ≠ writeEv st w := by
  unfold writeEv
  split
  · split
    · simp
    · split <;> simp
  · simp

theorem loop_safe_inv (ctx : Ctx) (env : Env) (cb : Bool) (hs : ctx.safe = true) :
    ∀ fuel ph st st', loop ctx env cb fuel ph st = some st' →
    Event.removeE ∉ st.events → Event.removeE ∉ st'.events := by
  intro fuel
  induction fuel with
  | zero => intro ph st st' h; simp [loop] at h
  | succ n ih =>
    intro ph st st' h hm
    cases ph with
    | readP =>
      simp only [loop] at h
      split at h
      · split at h
        · exact ih _ _ _ h (by simp [hm])
        · cases h; simp [hm]
      · exact ih _ _ _ h (by simp [hm])
    | writeP w =>
      simp only [loop] at h
      split at h
      · split at h
        · exact ih _ _ _ h (by simp [hm, writeEv_ne_remove])
        · cases h
          rw [goRemove_events, hs, if_pos rfl]
          simp [hm, writeEv_ne_remove]
      · split at h
        · exact ih _ _ _ h (by simp [hm, writeEv_ne_remove])
        · cases h; simp [hm, writeEv_ne_remove]

theorem loop_remove_write (ctx : Ctx) (env : Env) (cb : Bool) :
    ∀ fuel ph st st', loop ctx env cb fuel ph st = some st' →
    Event.removeE ∉ st.events → Event.removeE ∈ st'.events →
    ctx.safe = false ∧ 0 < st'.stats.write ∧ st'.total_size ≤ st'.recovered_size ∧
      (cb = true → st'.callback_fired = true) := by
  intro fuel
  induction fuel with
  | zero => intro ph st st' h; simp [loop] at h
  | succ n ih =>
    intro ph st st' h hm hr
    cases ph with
    | readP =>
      simp only [loop] at h
      split at h
      · split at h
        · exact ih _ _ _ h (by simp [hm]) hr
        · cases h; simp [hm] at hr
      · exact ih _ _ _ h (by simp [hm]) hr
    | writeP w =>
      simp only [loop] at h
      split at h
      · split at h
        · exact ih _ _ _ h (by simp [hm, writeEv_ne_remove]) hr
        · cases h
          rename_i hwok hlt
          rw [goRemove_events] at hr
          by_cases hsafe : ctx.safe
          · rw [if_pos hsafe] at hr
            simp [hm, writeEv_ne_remove] at hr
          · refine ⟨by simp [hsafe], ?_, ?_, ?_⟩
            · refine Nat.lt_of_lt_of_le ?_ (goRemove_write_le ctx env cb _)
              exact Nat.succ_pos st.stats.write
            · rw [goRemove_total, goRemove_recovered]
              simpa using Nat.le_of_not_lt hlt
            · intro hcb; subst hcb; exact goRemove_callback ctx env _
      · split at h
        · exact ih _ _ _ h (by simp [hm, writeEv_ne_remove]) hr
        · cases h; simp [hm, writeEv_ne_remove] at hr

theorem loop_fail_inv (ctx : Ctx) (env : Env) (cb : Bool)
    (hre : env.remove_stats.read_failed = 0) (hwe : env.remove_stats.write_failed = 0) :
    ∀ fuel ph st st', loop ctx env cb fuel ph st = some st' →
    Event.removeE ∉ st.events → st.callback_fired = false →
    st.stats.read_failed = 0 → st.stats.write_failed = 0 →
    0 < st'.stats.read_failed + st'.stats.write_failed →
    Event.removeE ∉ st'.events ∧ st'.callback_fired = false := by
  intro fuel
  induction fuel with
  | zero => intro ph st st' h; simp [loop] at h
  | succ n ih =>
    intro ph st st' h hm hcb hrf hwf hpos
    cases ph with
    | readP =>
      simp only [loop] at h
      split at h
      · split at h
        · exact ih _ _ _ h (by simp [hm]) hcb hrf hwf hpos
        · cases h; exact ⟨by simp [hm], hcb⟩
      · exact ih _ _ _ h (by simp [hm]) hcb hrf hwf hpos
    | writeP w =>
      simp only [loop] at h
      split at h
      · split at h
        · exact ih _ _ _ h (by simp [hm, writeEv_ne_remove]) hcb hrf hwf hpos
        · exfalso
          cases h
          rw [goRemove_read_failed, goRemove_write_failed] at hpos
          by_cases hs : ctx.safe = true
          · rw [if_pos hs, if_pos hs] at hpos
            simp at hpos
            omega
          · rw [if_neg hs, if_neg hs, hre, hwe] at hpos
            simp at hpos
            omega
      · split at h
        · exact ih _ _ _ h (by simp [hm, writeEv_ne_remove]) hcb hrf hwf hpos
        · cases h; exact ⟨by simp [hm, writeEv_ne_remove], hcb⟩

theorem loop_style_inv (ctx : Ctx) (env : Env) (cb : Bool) :
    ∀ fuel ph st st', loop ctx env cb fuel ph st = some st' → st.chunked = false →
    (∀ e ∈ st.events, chunkStyle e = false) → ∀ e ∈ st'.events, chunkStyle e = false := by
  intro fuel
  induction fuel with
  | zero => intro ph st st' h; simp [loop] at h
  | succ n ih =>
    intro ph st st' h hc hall
    cases ph with
    | readP =>
      simp only [loop] at h
      have hsz : readSz ctx st = 0 := by simp [readSz, hc]
      split at h
      · split at h
        · refine ih _ _ _ h hc ?_
          intro e he
          rcases List.mem_append.mp he with he | he
          · exact hall e he
          · simp at he; subst he; simp [chunkStyle, hsz]
        · cases h
          intro e he
          rcases List.mem_append.mp he with he | he
          · exact hall e he
          · simp at he; subst he; simp [chunkStyle, hsz]
      · refine ih _ _ _ h hc ?_
        intro e he
        rcases List.mem_append.mp he with he | he
        · exact hall e he
        · simp at he; subst he; simp [chunkStyle, hsz]
    | writeP w =>
      simp only [loop] at h
      have hev : writeEv st w = Event.writeDataE st.recovered_size := by
        simp [writeEv, hc]
      have hall1 : ∀ e ∈ st.events ++ [writeEv st w], chunkStyle e = false := by
        intro e he
        rcases List.mem_append.mp he with he | he
        · exact hall e he
        · simp at he; subst he; simp [hev, chunkStyle]
      split at h
      · split at h
        · exact ih _ _ _ h hc hall1
        · cases h
          rw [goRemove_events]
          intro e he
          split at he
          · exact hall1 e he
          · rcases List.mem_append.mp he with he | he
            · exact hall1 e he
            · simp at he; subst he; simp [chunkStyle]
      · split at h
        · exact ih _ _ _ h hc hall1
        · cases h; exact hall1

/-- C1: in every terminated `Recovery` run, a `REMOVE` on the holder is
issued only when `just_remove` was set (the owner had a strictly newer
copy) or a `WRITE` to the owner succeeded with `recovered_size` having
reached `total_size`; moreover a run that terminally failed a READ or a
WRITE (nonzero `read_failed` or `write_failed`) issued no `REMOVE` at
all.  The side conditions say only that the external `LookupDirect` /
`RemoveDirect` helpers do not themselves report read or write failures
into the folded stats. -/
theorem C1_remove_requires_write_or_just_remove
    (ctx : Ctx) (env : Env) (kt size addr : Nat) (check cb : Bool) (fuel : Nat) (st : RState)
    (hrun : runRecovery ctx env kt size addr check cb fuel = some st)
    (hl1 : env.lookup_stats.read_failed = 0) (hl2 : env.lookup_stats.write_failed = 0)
    (hr1 : env.remove_stats.read_failed = 0) (hr2 : env.remove_stats.write_failed = 0) :
    (Event.removeE ∈ st.events →
      st.just_remove = true ∨ (0 < st.stats.write ∧ st.total_size ≤ st.recovered_size)) ∧
    (0 < st.stats.read_failed + st.stats.write_failed → Event.removeE ∉ st.events) := by
  simp only [runRecovery] at hrun
  split at hrun
  · cases hrun
    constructor
    · intro hm; simp [initState] at hm
    · intro _ hm; simp [initState] at hm
  · split at hrun
    · split at hrun
      · split at hrun
        · cases hrun
          constructor
          · intro _; left; rfl
          · intro hpos
            exfalso
            simp [initState, addStat, zeroStat, hl1, hl2] at hpos
        · cases hrun
          constructor
          · intro _
            left
            rw [goRemove_just_remove]
          · intro hpos
            exfalso
            rw [goRemove_read_failed, goRemove_write_failed] at hpos
            by_cases hs : ctx.safe = true
            · rw [if_pos hs, if_pos hs] at hpos
              simp [initState, addStat, zeroStat, hl1, hl2] at hpos
            · rw [if_neg hs, if_neg hs, hr1, hr2] at hpos
              simp [initState, addStat, zeroStat, hl1, hl2] at hpos
      · split at hrun
        · cases hrun
          constructor
          · intro hm; simp [initState] at hm
          · intro _ hm; simp [initState] at hm
        · constructor
          · intro hm
            right
            have h3 := loop_remove_write ctx env cb _ _ _ _ hrun (by simp [initState]) hm
            exact ⟨h3.2.1, h3.2.2.1⟩
          · intro hpos
            have h4 := loop_fail_inv ctx env cb hr1 hr2 _ _ _ _ hrun
              (by simp [initState]) (by simp [initState])
              (by simp [initState, addStat, zeroStat, hl1])
              (by simp [initState, addStat, zeroStat, hl2]) hpos
            exact h4.1
    · split at hrun
      · cases hrun
        constructor
        · intro hm; simp [initState] at hm
        · intro _ hm; simp [initState] at hm
      · constructor
        · intro hm
          right
          have h3 := loop_remove_write ctx env cb _ _ _ _ hrun (by simp [initState]) hm
          exact ⟨h3.2.1, h3.2.2.1⟩
        · intro hpos
          have h4 := loop_fail_inv ctx env cb hr1 hr2 _ _ _ _ hrun
            (by simp [initState]) (by simp [initState])
            (by simp [initState, zeroStat]) (by simp [initState, zeroStat]) hpos
          exact h4.1

/-- Witness for C1: a run that writes the key and then removes it
satisfies the data-safety property. -/
theorem C1_witness :
    runRecovery wCtx wEnvOk 0 5 0 false true 10 = some c1St ∧
    wEnvOk.lookup_stats.read_failed = 0 ∧ wEnvOk.remove_stats.read_failed = 0 ∧
    ((Event.removeE ∈ c1St.events →
        c1St.just_remove = true ∨ (0 < c1St.stats.write ∧ c1St.total_size ≤ c1St.recovered_size)) ∧
      (0 < c1St.stats.read_failed + c1St.stats.write_failed → Event.removeE ∉ c1St.events)) :=
  ⟨rfl, rfl, rfl,
    C1_remove_requires_write_or_just_remove wCtx wEnvOk 0 5 0 false true 10 c1St rfl
      rfl rfl rfl rfl⟩

/-- C2 counterexample: with `check = true` and the owner's copy at a
timestamp EQUAL to the task's `key_timestamp` (both 5), the code takes
the `key_timestamp < result.timestamp` branch negatively: `just_remove`
stays false and the task reads and writes the key instead of removing it
directly, contradicting the claim's "equal to or newer". -/
theorem C2_counterexample_equal_timestamp :
    (runRecovery wCtx wEnvOk 5 5 0 true false 10).map
        (fun st => (st.just_remove, st.events)) =
      some (false, [Event.lookupE, Event.readE 0 0, Event.writeDataE 0, Event.removeE]) ∧
    ¬ (runRecovery wCtx wEnvOk 5 5 0 true false 10).map (fun st => st.just_remove) =
        some true := by
  constructor <;> decide

/-- C2 as amended: with `check = true`, when the direct lookup on the
owner finds a copy whose timestamp is STRICTLY newer than the task's
`key_timestamp`, and neither `dry_run` nor `safe` is set, the task sets
`just_remove` and issues exactly the lookup followed by the remove — no
read and no write. -/
theorem C2_newer_timestamp_just_remove
    (ctx : Ctx) (env : Env) (kt size addr : Nat) (cb : Bool) (fuel : Nat)
    (hown : env.owner ≠ addr) (hf : env.lookup_found = true)
    (hts : kt < env.lookup_timestamp)
    (hdry : ctx.dry_run = false) (hsafe : ctx.safe = false) :
    ∃ st, runRecovery ctx env kt size addr true cb fuel = some st ∧
      st.just_remove = true ∧ st.events = [Event.lookupE, Event.removeE] := by
  simp [runRecovery, hown, hf, hts, hdry, hsafe, goRemove, initState]

/-- Witness for C2's amended theorem: key timestamp 4, owner copy at 5. -/
theorem C2_witness :
    ∃ st, runRecovery wCtx wEnvOk 4 5 0 true false 10 = some st ∧
      st.just_remove = true ∧ st.events = [Event.lookupE, Event.removeE] :=
  C2_newer_timestamp_just_remove wCtx wEnvOk 4 5 0 false 10 (by decide) rfl
    (by decide) rfl rfl

/-- C4: when `ctx.safe` is set no remove is ever issued: a merge
`Recovery` task never emits a `removeE` whatever path it terminates on,
and `DumpRecover.remove` issues no cleanup removes. -/
theorem C4_safe_mode_no_remove
    (ctx : Ctx) (env : Env) (kt size addr : Nat) (check cb : Bool) (fuel : Nat) (st : RState)
    (hsafe : ctx.safe = true)
    (hrun : runRecovery ctx env kt size addr check cb fuel = some st) :
    Event.removeE ∉ st.events ∧
    ∀ sa ra lrs, dumpRemoveTargets true sa ra lrs = [] := by
  constructor
  · simp only [runRecovery] at hrun
    split at hrun
    · cases hrun; simp [initState]
    · split at hrun
      · split at hrun
        · split at hrun
          · cases hrun; simp [initState]
          · cases hrun
            rw [goRemove_events, if_pos hsafe]
            simp [initState]
        · split at hrun
          · cases hrun; simp [initState]
          · exact loop_safe_inv ctx env cb hsafe _ _ _ _ hrun (by simp [initState])
      · split at hrun
        · cases hrun; simp [initState]
        · exact loop_safe_inv ctx env cb hsafe _ _ _ _ hrun (by simp [initState])
  · intro sa ra lrs
    simp [dumpRemoveTargets]

/-- Witness for C4: a safe-mode run of an otherwise fully successful
recovery terminates with no remove issued. -/
theorem C4_witness :
    wCtxSafe.safe = true ∧
    runRecovery wCtxSafe wEnvOk 0 5 0 false true 10 = some c4St ∧
    (Event.removeE ∉ c4St.events ∧ ∀ sa ra lrs, dumpRemoveTargets true sa ra lrs = []) :=
  ⟨rfl, rfl, C4_safe_mode_no_remove wCtxSafe wEnvOk 0 5 0 false true 10 c4St rfl rfl⟩

/-- C5 evaluation at the failing input: the first read times out and is
retried (`read_retries = 1`), yet the direct session the read is issued
on keeps its original timeout 10, while it is the routed session (used
for writes) whose timeout was doubled to 20 — `onread` executes
`self.session.timeout *= 2` although the read runs on
`self.direct_session`, and its own log message then prints
`self.direct_session.timeout` as the "increased timeout". -/
theorem C5_read_retry_doubles_routed_session_only :
    (runRecovery wCtx wEnvRetry 0 50 0 false false 10).map
        (fun st => (st.stats.read_retries, st.direct_timeout, st.session_timeout)) =
      some (1, 10, 20) ∧
    ¬ (runRecovery wCtx wEnvRetry 0 50 0 false false 10).map
        (fun st => st.direct_timeout) = some 20 := by
  constructor <;> decide

/-- C6: a key whose routed owner is the holder itself terminates
immediately with `stats.skipped` incremented to exactly one, every other
counter zero, and an empty event trace (no lookup, read, write, or
remove issued). -/
theorem C6_skip_when_owner_equals_holder
    (ctx : Ctx) (env : Env) (kt size addr : Nat) (check cb : Bool) (fuel : Nat)
    (hown : env.owner = addr) :
    runRecovery ctx env kt size addr check cb fuel =
      some { initState ctx size with stats := { zeroStat with skipped := 1 } } ∧
    (initState ctx size).events = [] := by
  constructor
  · simp [runRecovery, hown, initState, zeroStat]
  · rfl

/-- Witness for C6: owner and holder both node 1. -/
theorem C6_witness :
    wEnvOk.owner = 1 ∧
    (runRecovery wCtx wEnvOk 0 5 1 true true 10 =
        some { initState wCtx 5 with stats := { zeroStat with skipped := 1 } } ∧
      (initState wCtx 5).events = []) :=
  ⟨rfl, C6_skip_when_owner_equals_holder wCtx wEnvOk 0 5 1 true true 10 rfl⟩

/-- C8 counterexample: a task constructed with a callback whose read
fails terminally (attempts exhausted) marks itself failed
(`read_failed = 1`, `result = false`) but never fires the callback,
contradicting the claim that the callback fires on every terminal
outcome. -/
theorem C8_counterexample_terminal_read_failure :
    (runRecovery wCtxOneAttempt wEnvReadFail 0 5 0 false true 10).map
        (fun st => (st.callback_fired, st.stats.read_failed, st.result)) =
      some (false, 1, false) ∧
    ¬ (runRecovery wCtxOneAttempt wEnvReadFail 0 5 0 false true 10).map
        (fun st => st.callback_fired) = some true := by
  constructor <;> decide

/-- C8 as amended: for a task constructed with a callback, the callback
fires whenever a `REMOVE` was issued (the task reached the remove
stage), but on a terminal READ or WRITE failure after exhausted attempts
the callback does not fire — so in dump recovery the chained cleanup
runs only when recovery reaches the remove stage.  The side conditions
say that the external helpers report no read or write failures of their
own. -/
theorem C8_callback_fires_only_via_remove_stage
    (ctx : Ctx) (env : Env) (kt size addr : Nat) (check : Bool) (fuel : Nat) (st : RState)
    (hrun : runRecovery ctx env kt size addr check true fuel = some st)
    (hl1 : env.lookup_stats.read_failed = 0) (hl2 : env.lookup_stats.write_failed = 0)
    (hr1 : env.remove_stats.read_failed = 0) (hr2 : env.remove_stats.write_failed = 0) :
    (Event.removeE ∈ st.events → st.callback_fired = true) ∧
    (0 < st.stats.read_failed + st.stats.write_failed → st.callback_fired = false) := by
  simp only [runRecovery] at hrun
  split at hrun
  · cases hrun
    constructor
    · intro hm; simp [initState] at hm
    · intro _; rfl
  · split at hrun
    · split at hrun
      · split at hrun
        · cases hrun
          constructor
          · intro hm; simp [initState] at hm
          · intro _; rfl
        · cases hrun
          constructor
          · intro _; exact goRemove_callback ctx env _
          · intro hpos
            exfalso
            rw [goRemove_read_failed, goRemove_write_failed] at hpos
            by_cases hs : ctx.safe = true
            · rw [if_pos hs, if_pos hs] at hpos
              simp [initState, addStat, zeroStat, hl1, hl2] at hpos
            · rw [if_neg hs, if_neg hs, hr1, hr2] at hpos
              simp [initState, addStat, zeroStat, hl1, hl2] at hpos
      · split at hrun
        · cases hrun
          constructor
          · intro hm; simp [initState] at hm
          · intro _; rfl
        · constructor
          · intro hm
            exact (loop_remove_write ctx env true _ _ _ _ hrun
              (by simp [initState]) hm).2.2.2 rfl
          · intro hpos
            exact (loop_fail_inv ctx env true hr1 hr2 _ _ _ _ hrun (by simp [initState])
              (by simp [initState]) (by simp [initState, addStat, zeroStat, hl1])
              (by simp [initState, addStat, zeroStat, hl2]) hpos).2
    · split at hrun
      · cases hrun
        constructor
        · intro hm; simp [initState] at hm
        · intro _; rfl
      · constructor
        · intro hm
          exact (loop_remove_write ctx env true _ _ _ _ hrun
            (by simp [initState]) hm).2.2.2 rfl
        · intro hpos
          exact (loop_fail_inv ctx env true hr1 hr2 _ _ _ _ hrun (by simp [initState])
            (by simp [initState]) (by simp [initState, zeroStat])
            (by simp [initState, zeroStat]) hpos).2

/-- Witness for C8's amended theorem: a successful just-remove run with
a callback, whose remove was issued and whose callback fired. -/
theorem C8_witness :
    runRecovery wCtx wEnvOk 0 5 0 true true 10 = some c8St ∧
    ((Event.removeE ∈ c8St.events → c8St.callback_fired = true) ∧
      (0 < c8St.stats.read_failed + c8St.stats.write_failed →
        c8St.callback_fired = false)) :=
  ⟨rfl, C8_callback_fires_only_via_remove_stage wCtx wEnvOk 0 5 0 true 10 c8St rfl
    rfl rfl rfl rfl⟩

/-- C10: `chunked` is computed once in the constructor from the
iterator-reported `size` and is never recomputed — in every terminated
run it still equals `decide (ctx.chunk_size < size)` even though
`total_size` is overwritten on every read.  Consequently a key whose
iterator-reported size is at most `ctx.chunk_size` only ever issues
whole-object reads (`size = 0`) and plain `write_data` writes (no
prepare/plain/commit), and when the single read returns the whole object
the trace is exactly read, one `write_data`, remove. -/
theorem C10_chunked_fixed_at_construction
    (ctx : Ctx) (env : Env) (kt size addr : Nat) (check cb : Bool) (fuel : Nat) (st : RState)
    (hrun : runRecovery ctx env kt size addr check cb fuel = some st) :
    st.chunked = decide (ctx.chunk_size < size) ∧
    (size ≤ ctx.chunk_size → ∀ e ∈ st.events, chunkStyle e = false) ∧
    (∀ r : ReadResp, size ≤ ctx.chunk_size → check = false → ctx.dry_run = false →
      ctx.safe = false → env.owner ≠ addr → env.read_resp 0 = some r →
      r.io_total_size ≤ r.size → env.write_ok 0 = true → 2 ≤ fuel →
      st.events = [Event.readE 0 0, Event.writeDataE 0, Event.removeE]) := by
  refine ⟨?_, ?_, ?_⟩
  · simp only [runRecovery] at hrun
    split at hrun
    · cases hrun; simp [initState]
    · split at hrun
      · split at hrun
        · split at hrun
          · cases hrun; simp [initState]
          · cases hrun; rw [goRemove_chunked]; simp [initState]
        · split at hrun
          · cases hrun; simp [initState]
          · exact (loop_chunked_inv ctx env cb _ _ _ _ hrun).trans (by simp [initState])
      · split at hrun
        · cases hrun; simp [initState]
        · exact (loop_chunked_inv ctx env cb _ _ _ _ hrun).trans (by simp [initState])
  · intro hsize
    have hnotlt : ¬ ctx.chunk_size < size := Nat.not_lt.mpr hsize
    simp only [runRecovery] at hrun
    split at hrun
    · cases hrun; simp [initState]
    · split at hrun
      · split at hrun
        · split at hrun
          · cases hrun
            intro e he
            simp [initState] at he
            subst he; rfl
          · cases hrun
            rw [goRemove_events]
            intro e he
            split at he
            · simp [initState] at he
              subst he; rfl
            · simp [initState] at he
              rcases he with he | he <;> subst he <;> rfl
        · split at hrun
          · cases hrun
            intro e he
            simp [initState] at he
            subst he; rfl
          · refine loop_style_inv ctx env cb _ _ _ _ hrun (by simp [initState, hnotlt]) ?_
            intro e he
            simp [initState] at he
            subst he; rfl
      · split at hrun
        · cases hrun
          intro e he
          simp [initState] at he
        · refine loop_style_inv ctx env cb _ _ _ _ hrun (by simp [initState, hnotlt]) ?_
          intro e he
          simp [initState] at he
  · intro r hsize hcheck hdry hsafe hown hr0 hio hw0 hfuel
    subst hcheck
    obtain ⟨n, rfl⟩ : ∃ n, fuel = n + 2 := ⟨fuel - 2, by omega⟩
    have hnotlt : ¬ ctx.chunk_size < size := Nat.not_lt.mpr hsize
    have hnotlt2 : ¬ r.size < r.io_total_size := by omega
    simp only [runRecovery] at hrun
    rw [if_neg hown, if_neg (by simp), if_neg (by simp [hdry])] at hrun
    simp only [loop, initState] at hrun
    rw [hr0] at hrun
    simp only [readSz, hnotlt, decide_False, if_false, Bool.false_eq_true,
      reduceCtorEq, Nat.zero_add] at hrun
    simp only [loop, writeEv] at hrun
    rw [hw0] at hrun
    simp [goRemove, hsafe, hnotlt, hnotlt2] at hrun
    cases hrun
    simp [hnotlt2]

/-- Witness for C10: a 5-byte key with a 100-byte chunk size, fully
successful run; the trace is exactly one whole-object read, one
`write_data`, one remove. -/
theorem C10_witness :
    runRecovery wCtx wEnvOk 0 5 0 false false 10 = some c10St ∧
    c10St.events = [Event.readE 0 0, Event.writeDataE 0, Event.removeE] ∧
    (c10St.chunked = decide (wCtx.chunk_size < 5) ∧
      ((5 : Nat) ≤ wCtx.chunk_size → ∀ e ∈ c10St.events, chunkStyle e = false) ∧
      (∀ r : ReadResp, (5 : Nat) ≤ wCtx.chunk_size → false = false →
        wCtx.dry_run = false → wCtx.safe = false → wEnvOk.owner ≠ 0 →
        wEnvOk.read_resp 0 = some r → r.io_total_size ≤ r.size →
        wEnvOk.write_ok 0 = true → 2 ≤ 10 →
        c10St.events = [Event.readE 0 0, Event.writeDataE 0, Event.removeE])) :=
  ⟨rfl, by decide,
    C10_chunked_fixed_at_construction wCtx wEnvOk 0 5 0 false false 10 c10St rfl⟩

/-- The winners list computed by `DumpRecover.check` (maximum timestamp,
then maximum size) contains exactly the responses no other response
beats: present, with no strictly newer response, and no larger response
of the same timestamp. -/
theorem mem_dumpWinners_iff (present : List LookupResp) (hne : present ≠ [])
    (r : LookupResp) : r ∈ dumpWinners present ↔ isWinner present r := by
  cases hmt : (present.map (fun q => q.timestamp)).max? with
  | none =>
    rw [List.max?_eq_none_iff, List.map_eq_nil_iff] at hmt
    exact absurd hmt hne
  | some mts =>
    have hmt2 := hmt
    rw [List.max?_eq_some_iff'] at hmt2
    obtain ⟨hmem, hbound⟩ := hmt2
    obtain ⟨q0, hq0, hq0ts⟩ := List.mem_map.mp hmem
    cases hms : ((present.filter (fun q => q.timestamp == mts)).map (fun q => q.size)).max? with
    | none =>
      exfalso
      rw [List.max?_eq_none_iff, List.map_eq_nil_iff, List.filter_eq_nil_iff] at hms
      exact hms q0 hq0 (by simp [hq0ts])
    | some msz =>
      have hW : dumpWinners present =
          (present.filter (fun q => q.timestamp == mts)).filter
            (fun q => q.size == msz) := by
        simp only [dumpWinners, hmt, hms]
      rw [hW]
      rw [List.max?_eq_some_iff'] at hms
      obtain ⟨hszmem, hszbound⟩ := hms
      obtain ⟨q1, hq1, hq1sz⟩ := List.mem_map.mp hszmem
      rw [List.mem_filter] at hq1
      constructor
      · intro hr
        rw [List.mem_filter] at hr
        obtain ⟨hrmem, hrsz⟩ := hr
        rw [List.mem_filter] at hrmem
        obtain ⟨hrpres, hrts⟩ := hrmem
        have hrts' : r.timestamp = mts := by simpa using hrts
        have hrsz' : r.size = msz := by simpa using hrsz
        refine ⟨hrpres, ?_, ?_⟩
        · intro q hq
          rw [hrts']
          exact hbound _ (List.mem_map_of_mem _ hq)
        · intro q hq hqts
          rw [hrsz']
          exact hszbound _ (List.mem_map_of_mem _
            (List.mem_filter.mpr ⟨hq, by simp [hqts, hrts']⟩))
      · rintro ⟨hrpres, hts, hsz⟩
        have hrts : r.timestamp = mts := by
          apply Nat.le_antisymm
          · exact hbound _ (List.mem_map_of_mem _ hrpres)
          · rw [← hq0ts]
            exact hts q0 hq0
        have hq1ts : q1.timestamp = r.timestamp := by
          have := hq1.2
          simp only [beq_iff_eq] at this
          rw [this, hrts]
        have hrsz : r.size = msz := by
          apply Nat.le_antisymm
          · exact hszbound _ (List.mem_map_of_mem _
              (List.mem_filter.mpr ⟨hrpres, by simp [hrts]⟩))
          · rw [← hq1sz]
            exact hsz q1 hq1.1 hq1ts
        exact List.mem_filter.mpr
          ⟨List.mem_filter.mpr ⟨hrpres, by simp [hrts]⟩, by simp [hrsz]⟩

/-- C7: when at least one lookup succeeded, `DumpRecover.check` never
errors; it decides cleanup exactly when the rightful owner's address is
among the winners (the responses with maximum timestamp and, among
those, maximum size); otherwise it recovers from the FIRST winner, with
the recovery task receiving the maximum timestamp and size and
`check = false` with the cleanup callback attached. -/
theorem C7_dump_winner_selection (sa : Nat) (lrs : List (Option LookupResp))
    (hne : presentOf lrs ≠ []) :
    (∀ r, r ∈ dumpWinners (presentOf lrs) ↔ isWinner (presentOf lrs) r) ∧
    (∃ d, dumpCheck sa lrs = Except.ok d) ∧
    (dumpCheck sa lrs = Except.ok DumpDecision.cleanup ↔
      sa ∈ (dumpWinners (presentOf lrs)).map (fun r => r.address)) ∧
    (∀ w ts sz, dumpCheck sa lrs = Except.ok (DumpDecision.recoverFrom w ts sz) →
      sa ∉ (dumpWinners (presentOf lrs)).map (fun r => r.address) ∧
      ((dumpWinners (presentOf lrs)).map (fun r => r.address)).head? = some w ∧
      (∃ r, isWinner (presentOf lrs) r ∧ r.address = w ∧ r.timestamp = ts ∧ r.size = sz) ∧
      (dumpRecoverArgs ts sz w).check = false ∧
      (dumpRecoverArgs ts sz w).has_callback = true ∧
      (dumpRecoverArgs ts sz w).key_timestamp = ts ∧
      (dumpRecoverArgs ts sz w).size = sz ∧
      (dumpRecoverArgs ts sz w).address = w) := by
  have hiff := mem_dumpWinners_iff (presentOf lrs) hne
  refine ⟨hiff, ?_⟩
  cases hmt : ((presentOf lrs).map (fun q => q.timestamp)).max? with
  | none =>
    exfalso
    rw [List.max?_eq_none_iff, List.map_eq_nil_iff] at hmt
    exact absurd hmt hne
  | some mts =>
    have hmt' := hmt
    rw [List.max?_eq_some_iff'] at hmt'
    obtain ⟨q0, hq0, hq0ts⟩ := List.mem_map.mp hmt'.1
    cases hms : (((presentOf lrs).filter (fun q => q.timestamp == mts)).map
        (fun q => q.size)).max? with
    | none =>
      exfalso
      rw [List.max?_eq_none_iff, List.map_eq_nil_iff, List.filter_eq_nil_iff] at hms
      exact hms q0 hq0 (by simp [hq0ts])
    | some msz =>
      have hW : dumpWinners (presentOf lrs) =
          ((presentOf lrs).filter (fun q => q.timestamp == mts)).filter
            (fun q => q.size == msz) := by
        simp only [dumpWinners, hmt, hms]
      by_cases hsa : sa ∈ ((((presentOf lrs).filter (fun q => q.timestamp == mts)).filter
          (fun q => q.size == msz)).map (fun r => r.address))
      · have hC1 : dumpCheck sa lrs = Except.ok DumpDecision.cleanup := by
          simp only [dumpCheck, hmt, hms]
          rw [if_pos hsa]
        rw [hC1]
        refine ⟨⟨DumpDecision.cleanup, rfl⟩, ?_, ?_⟩
        · rw [hW]
          exact ⟨fun _ => hsa, fun _ => rfl⟩
        · intro w ts sz hcontra
          exact absurd hcontra (by simp)
      · cases hwl : ((((presentOf lrs).filter (fun q => q.timestamp == mts)).filter
            (fun q => q.size == msz)).map (fun r => r.address)) with
        | nil =>
          exfalso
          rw [List.max?_eq_some_iff'] at hms
          obtain ⟨q1, hq1, hq1sz⟩ := List.mem_map.mp hms.1
          have : q1.address ∈ ((((presentOf lrs).filter
              (fun q => q.timestamp == mts)).filter (fun q => q.size == msz)).map
                (fun r => r.address)) :=
            List.mem_map_of_mem _ (List.mem_filter.mpr ⟨hq1, by simp [hq1sz]⟩)
          rw [hwl] at this
          exact absurd this (List.not_mem_nil _)
        | cons w0 rest =>
          have hC2 : dumpCheck sa lrs =
              Except.ok (DumpDecision.recoverFrom w0 mts msz) := by
            simp only [dumpCheck, hmt, hms]
            rw [if_neg hsa, hwl]
          rw [hC2]
          refine ⟨⟨DumpDecision.recoverFrom w0 mts msz, rfl⟩, ?_, ?_⟩
          · rw [hW, hwl]
            constructor
            · intro hcontra
              exact absurd hcontra (by simp)
            · intro hcontra
              rw [hwl] at hsa
              exact absurd hcontra hsa
          · intro w ts sz heq
            have hw : w0 = w ∧ mts = ts ∧ msz = sz := by
              have := Except.ok.inj heq
              exact ⟨by injection this, by injection this, by injection this⟩
            obtain ⟨hw0, hts0, hsz0⟩ := hw
            subst hw0; subst hts0; subst hsz0
            have hhead : ((((presentOf lrs).filter (fun q => q.timestamp == mts)).filter
                (fun q => q.size == msz)).map (fun r => r.address)).head? = some w0 := by
              rw [hwl]
              rfl
            have hwmem : w0 ∈ ((((presentOf lrs).filter (fun q => q.timestamp == mts)).filter
                (fun q => q.size == msz)).map (fun r => r.address)) := by
              rw [hwl]
              exact List.mem_cons_self _ _
            obtain ⟨rr, hrr, hrraddr⟩ := List.mem_map.mp hwmem
            have hrrts : rr.timestamp = mts := by
              have := (List.mem_filter.mp (List.mem_filter.mp hrr).1).2
              simpa using this
            have hrrsz : rr.size = msz := by
              have := (List.mem_filter.mp hrr).2
              simpa using this
            refine ⟨by rw [hW]; exact hsa, by rw [hW]; exact hhead,
              ⟨rr, (hiff rr).mp (by rw [hW]; exact hrr), hrraddr, hrrts, hrrsz⟩,
              rfl, rfl, rfl, rfl, rfl⟩

/-- C9: when every direct lookup missed (all collected results falsy),
the list the selection step takes a maximum over is empty: Python's
`max([])` raises, modelled as `Except.error`, so no recovery decision,
recovery, or cleanup remove happens for the key. -/
theorem C9_all_lookups_miss_error (sa : Nat) (lrs : List (Option LookupResp))
    (h : ∀ r ∈ lrs, r = none) :
    presentOf lrs = [] ∧ dumpCheck sa lrs = Except.error () := by
  have hp : presentOf lrs = [] := by
    rw [presentOf, List.filterMap_eq_nil_iff]
    intro a ha
    exact h a ha
  refine ⟨hp, ?_⟩
  unfold dumpCheck
  rw [hp]
  rfl

/-- Witness for C9: two misses. -/
theorem C9_witness :
    presentOf [none, none] = [] ∧ dumpCheck 0 [none, none] = Except.error () :=
  C9_all_lookups_miss_error 0 [none, none] (by decide)

/-- Witness for C7: the spec's tie-break scenario — replicas
`(100,10), (200,10), (200,20), (200,20)` and one miss; node 2 (a stale
replica) asks: the decision is to recover from node 4, the first of the
two winners, at timestamp 200 and size 20. -/
theorem C7_witness :
    presentOf c7Lrs ≠ [] ∧
    dumpCheck 2 c7Lrs = Except.ok (DumpDecision.recoverFrom 4 200 20) ∧
    ((∀ r, r ∈ dumpWinners (presentOf c7Lrs) ↔ isWinner (presentOf c7Lrs) r) ∧
      (∃ d, dumpCheck 2 c7Lrs = Except.ok d) ∧
      (dumpCheck 2 c7Lrs = Except.ok DumpDecision.cleanup ↔
        2 ∈ (dumpWinners (presentOf c7Lrs)).map (fun r => r.address)) ∧
      (∀ w ts sz, dumpCheck 2 c7Lrs = Except.ok (DumpDecision.recoverFrom w ts sz) →
        2 ∉ (dumpWinners (presentOf c7Lrs)).map (fun r => r.address) ∧
        ((dumpWinners (presentOf c7Lrs)).map (fun r => r.address)).head? = some w ∧
        (∃ r, isWinner (presentOf c7Lrs) r ∧ r.address = w ∧ r.timestamp = ts ∧
          r.size = sz) ∧
        (dumpRecoverArgs ts sz w).check = false ∧
        (dumpRecoverArgs ts sz w).has_callback = true ∧
        (dumpRecoverArgs ts sz w).key_timestamp = ts ∧
        (dumpRecoverArgs ts sz w).size = sz ∧
        (dumpRecoverArgs ts sz w).address = w)) :=
  ⟨by decide, rfl, C7_dump_winner_selection 2 c7Lrs (by decide)⟩

/-- C3 counterexample: address 7 with ZERO owned ranges is silently
skipped by the `continue` — the result is the empty dictionary, not a
mapping of 7 to the single full range; and address 7 whose single owned
range covers the whole keyspace stays IN the result, mapped to the
empty list, rather than being omitted. -/
theorem C3_counterexample_edge_cases :
    get_ranges false 0 [7] (fun _ => []) = some [] ∧
    ¬ (∃ rs, get_ranges false 0 [7] (fun _ => []) = some rs ∧
        (7, [(ID_MIN, ID_MAX)]) ∈ rs) ∧
    get_ranges false 0 [7] (fun _ => [(ID_MIN, ID_MAX)]) = some [(7, [])] ∧
    ¬ get_ranges false 0 [7] (fun _ => [(ID_MIN, ID_MAX)]) = some [] := by
  have h0 : get_ranges false 0 [7] (fun _ => ([] : List (Nat × Nat))) = some [] := rfl
  have h1 : get_ranges false 0 [7] (fun _ => [(ID_MIN, ID_MAX)]) = some [(7, [])] := by
    rfl
  refine ⟨h0, ?_, h1, ?_⟩
  · rintro ⟨rs, hrs, hmem⟩
    rw [h0] at hrs
    cases hrs
    simp at hmem
  · intro h
    have := h1.symm.trans h
    simp at this

/-- C3 as amended: in the range builder, an address whose owned range
list is empty is OMITTED from the result (no entry at all), and an
address whose single owned range is the full keyspace
`(ID_MIN, ID_MAX)` is KEPT in the result, mapped to the empty foreign
range list. -/
theorem C3_empty_and_full_ranges (x a : Nat) (addresses : List Nat)
    (f : Nat → List (Nat × Nat)) (ha : a ∈ addresses) :
    (f a = [] → ∃ rs, get_ranges false x addresses f = some rs ∧ ∀ l, (a, l) ∉ rs) ∧
    (f a = [(ID_MIN, ID_MAX)] → ∃ rs, get_ranges false x addresses f = some rs ∧
      (a, ([] : List (Nat × Nat))) ∈ rs) := by
  constructor
  · intro hfa
    refine ⟨_, rfl, ?_⟩
    intro l hl
    rw [List.mem_filterMap] at hl
    obtain ⟨b, hb, hgb⟩ := hl
    cases hfb : f b with
    | nil =>
      rw [hfb] at hgb
      simp at hgb
    | cons p rest =>
      rw [hfb] at hgb
      simp at hgb
      obtain ⟨hba, -⟩ := hgb
      subst hba
      rw [hfa] at hfb
      cases hfb
  · intro hfa
    refine ⟨_, rfl, ?_⟩
    rw [List.mem_filterMap]
    refine ⟨a, ha, ?_⟩
    rw [hfa]
    rfl

/-- Witness for C3's amended theorem: a one-address table with no owned
ranges, and a one-address table owning the full keyspace. -/
theorem C3_witness :
    (∃ rs, get_ranges false 0 [3] (fun _ => ([] : List (Nat × Nat))) = some rs ∧
      ∀ l, ((3 : Nat), l) ∉ rs) ∧
    (∃ rs, get_ranges false 0 [4] (fun _ => [(ID_MIN, ID_MAX)]) = some rs ∧
      ((4 : Nat), ([] : List (Nat × Nat))) ∈ rs) :=
  ⟨(C3_empty_and_full_ranges 0 3 [3] (fun _ => []) (by decide)).1 rfl,
   (C3_empty_and_full_ranges 0 4 [4] (fun _ => [(ID_MIN, ID_MAX)]) (by decide)).2 rfl⟩

end MergeRec
